import Mathlib

/-!
Formal model of the Alpine Pulse data collector pipeline (collect.py):
deduplication, batched sentiment classification with a keyword fallback,
aggregation into dashboard statistics, and a day-keyed rolling history.

Modelling conventions.  Python floats arising in the percentage and
average computations are modelled as exact rationals, and Python round
(round half to even) as pyRound below.  Wall-clock values (generated_at,
the weekday labels of the trend chart) and network transport are outside
the model: the current date string is a parameter, and the external
classification service is a parameter giving each batch response.  The
persisted history file is modelled by an Option (Option History): none
is an absent file, some none a file whose contents the JSON loader
rejects (it raises, and no handler exists in the source), some (some h)
a file parsed to h.
-/

namespace AlpinePulse

/-- One raw mention record, as produced by the collectors. -/
structure Mention where
  id : String
  source : String
  resort : String
  text : String
  url : String
  date : String
  engagement : String
  author : String
  is_gov : Bool
deriving DecidableEq

/-- A mention decorated with the four classification fields that the
analysis step adds (mention.copy() plus sentiment, sentiment_score,
theme, takeaway). -/
structure ClassifiedMention extends Mention where
  sentiment : String
  sentiment_score : ℤ
  theme : String
  takeaway : String
deriving DecidableEq

/-- One element of a successful service response: a batch-local index
plus the four classification fields.  Elements that are missing a field
raise a KeyError inside the merge loop in the source; that path joins
the same handler as an out-of-range negative index, which the model
keeps (see merge_results). -/
structure ServiceItem where
  index : ℤ
  sentiment : String
  sentiment_score : ℤ
  theme : String
  takeaway : String
deriving DecidableEq

/-- Outcome of one batch call to the external classification service:
failure covers transport errors, a non-200 status and an unparseable
payload, all of which make the source fall back for the whole batch. -/
inductive ServiceResponse where
  | failure
  | success (items : List ServiceItem)
deriving DecidableEq

/-- Substring occurrence on character lists, modelling the Python
membership test needle in haystack. -/
def subSeq : List Char → List Char → Bool
  | needle, [] => needle.isEmpty
  | needle, c :: rest => needle.isPrefixOf (c :: rest) || subSeq needle rest

/-- Python needle in hay, for strings. -/
def strContains (hay needle : String) : Bool := subSeq needle.data hay.data

/-- Code-point lexicographic order on character lists, as Python
compares strings. -/
def charListLe : List Char → List Char → Bool
  | [], _ => true
  | _ :: _, [] => false
  | a :: as, b :: bs => if a < b then true else if b < a then false else charListLe as bs

/-- Python string comparison a <= b. -/
def strLe (a b : String) : Bool := charListLe a.data b.data

/-- Python text.lower(), modelled as a character map (the ASCII lowering
of Char.toLower, which is also what String.toLower applies). -/
def strLower (s : String) : String := ⟨s.data.map Char.toLower⟩

/-- Python slicing text[:n]: the first n characters. -/
def strTake (s : String) (n : Nat) : String := ⟨s.data.take n⟩

/-- The positive keyword set of fallback_analysis. -/
def positive_words : List String :=
  ["great", "amazing", "love", "best", "incredible", "awesome", "excellent",
   "fantastic", "perfect", "beautiful", "pristine", "fresh", "powder", "recommend",
   "friendly", "patient", "spectacular", "hidden gem", "underrated", "well maintained"]

/-- The negative keyword set of fallback_analysis. -/
def negative_words : List String :=
  ["bad", "terrible", "worst", "wait", "crowded", "overpriced", "expensive",
   "broken", "closed", "dangerous", "icy", "rough", "complained", "poor", "rude", "slow",
   "lost", "frustrating", "pothole", "limited"]

/-- CONFIG THEMES: the twelve general themes. -/
def THEMES : List String :=
  ["Snow Conditions", "Pricing & Value", "Summer Activities", "Staff & Service",
   "Lift Wait Times", "Trails & Recreation", "Facilities & Lodging",
   "Access & Transportation", "Environmental Impact", "Safety & Incidents",
   "Events & Promotions", "Family & Beginner Experience"]

/-- CONFIG GOV_THEMES: the three Government of Alberta themes. -/
def GOV_THEMES : List String :=
  ["Regulatory Approvals & Land Use", "Tourism Strategy & Policy",
   "Environmental Assessment & Compliance"]

/-- The ordered theme keyword table of fallback_analysis, in source
(dict insertion) order. -/
def theme_keywords : List (String × List String) :=
  [("Snow Conditions", ["snow", "powder", "conditions", "fresh", "base", "coverage", "grooming"]),
   ("Pricing & Value", ["price", "cost", "expensive", "cheap", "value", "pass", "ticket", "afford"]),
   ("Summer Activities", ["summer", "hiking", "biking", "mountain bike", "camping"]),
   ("Staff & Service", ["staff", "instructor", "service", "friendly", "rude", "helpful"]),
   ("Lift Wait Times", ["wait", "line", "queue", "lift", "crowded", "busy", "chair"]),
   ("Facilities & Lodging", ["lodge", "food", "restaurant", "hotel", "parking", "washroom", "burger"]),
   ("Trails & Recreation", ["trail", "hike", "path", "recreation", "outdoor", "backcountry", "route"]),
   ("Access & Transportation", ["road", "drive", "access", "highway", "shuttle", "pothole", "signage"]),
   ("Environmental Impact", ["environment", "wildlife", "ecosystem", "sustainable", "assessment"]),
   ("Safety & Incidents", ["accident", "injury", "rescue", "closed", "avalanche", "danger"]),
   ("Events & Promotions", ["event", "festival", "promotion", "discount", "deal", "night ski"]),
   ("Family & Beginner Experience", ["family", "kids", "beginner", "lesson", "learn", "children"]),
   ("Regulatory Approvals & Land Use", ["regulatory", "bylaw", "land use", "permit", "zoning", "crown land", "approval"]),
   ("Tourism Strategy & Policy", ["tourism strategy", "tourism levy", "ministry", "government", "policy", "consultation"]),
   ("Environmental Assessment & Compliance", ["environmental assessment", "impact assessment", "compliance", "alberta environment"])]

/-- Number of positive keywords occurring in the lowercased text. -/
def pos_count (text : String) : Nat :=
  positive_words.countP (fun w => strContains (strLower text) w)

/-- Number of negative keywords occurring in the lowercased text. -/
def neg_count (text : String) : Nat :=
  negative_words.countP (fun w => strContains (strLower text) w)

/-- The theme scan of fallback_analysis: the first table entry with a
matching keyword wins; Trails & Recreation is the default. -/
def detect_theme (text_lower : String) : String :=
  match theme_keywords.find? (fun p => p.2.any (fun k => strContains text_lower k)) with
  | some p => p.1
  | none => "Trails & Recreation"

/-- The keyword fallback classifier applied to one mention. -/
def fallback_one (m : Mention) : ClassifiedMention :=
  let p := pos_count m.text
  let n := neg_count m.text
  { toMention := m
    sentiment := if n < p then "positive" else if p < n then "negative" else "neutral"
    sentiment_score :=
      if n < p then min (50 + 12 * (p : ℤ)) 95
      else if p < n then max (50 - 12 * (n : ℤ)) 5
      else 50
    theme := detect_theme (strLower m.text)
    takeaway := strTake m.text 120 }

/-- fallback_analysis: the fallback classifier mapped over a list. -/
def fallback_analysis (mentions : List Mention) : List ClassifiedMention :=
  mentions.map fallback_one

/-- mention = batch[idx].copy(); then the four result fields are set. -/
def apply_result (m : Mention) (r : ServiceItem) : ClassifiedMention :=
  { toMention := m, sentiment := r.sentiment, sentiment_score := r.sentiment_score,
    theme := r.theme, takeaway := r.takeaway }

/-- Python list indexing batch[i]: a nonnegative index reads from the
front, a negative index at least -len reads from the back, anything
below -len raises (none). -/
def pyGet? (l : List α) (i : ℤ) : Option α :=
  if 0 ≤ i then l[i.toNat]?
  else if 0 ≤ i + l.length then l[(i + (l.length : ℤ)).toNat]? else none

/-- The merge loop of analyze_mentions over a successful response: each
result whose index passes the idx < len(batch) guard appends the
classified copy of batch[idx]; a failing Python index access (idx below
-len, or in the source also a missing result field) aborts the loop
with the partial output and the raised flag set. -/
def merge_results (batch : List Mention) :
    List ServiceItem → List ClassifiedMention → List ClassifiedMention × Bool
  | [], acc => (acc, false)
  | r :: rs, acc =>
    if r.index < (batch.length : ℤ) then
      match pyGet? batch r.index with
      | some m => merge_results batch rs (acc ++ [apply_result m r])
      | none => (acc, true)
    else merge_results batch rs acc

/-- One batch of analyze_mentions: on failure the whole batch goes to
the fallback classifier; on success the merge loop runs, and if it
raised, the whole-batch fallback output is appended after the partial
output, as the exception handler in the source does. -/
def analyze_batch (batch : List Mention) : ServiceResponse → List ClassifiedMention
  | .failure => fallback_analysis batch
  | .success items =>
    match merge_results batch items [] with
    | (out, true) => out ++ fallback_analysis batch
    | (out, false) => out

/-- The fixed batch size of analyze_mentions. -/
def batch_size : Nat := 15

/-- The batching loop for i in range(0, len(mentions), batch_size). -/
def batched (l : List Mention) : List (List Mention) :=
  (List.range ((l.length + batch_size - 1) / batch_size)).map
    (fun k => (l.drop (batch_size * k)).take batch_size)

/-- analyze_mentions: with no API key the whole list goes through the
fallback classifier; otherwise each batch is sent to the service, whose
response for batch k is given by the respond parameter. -/
def analyze_mentions (hasKey : Bool) (respond : Nat → ServiceResponse)
    (mentions : List Mention) : List ClassifiedMention :=
  if hasKey then
    ((batched mentions).enum.map (fun ib => analyze_batch ib.2 (respond ib.1))).flatten
  else fallback_analysis mentions

/-- The deduplication loop of main, with its seen set of ids. -/
def dedupGo (seen : List String) : List Mention → List Mention
  | [] => []
  | m :: ms =>
    if m.id ∈ seen then dedupGo seen ms
    else m :: dedupGo (m.id :: seen) ms

/-- Deduplication of the collected mentions by id, first seen wins. -/
def dedup (l : List Mention) : List Mention := dedupGo [] l

/-- Python round on exact rationals: round half to even. -/
def pyRound (q : ℚ) : ℤ :=
  if Int.fract q < 1/2 then ⌊q⌋
  else if 1/2 < Int.fract q then ⌊q⌋ + 1
  else if ⌊q⌋ % 2 = 0 then ⌊q⌋ else ⌊q⌋ + 1

/-- The denominator guard: len(...) or 1, and the total = 1 substitution
for an empty mention set. -/
def pctDen (n : Nat) : Nat := if n = 0 then 1 else n

/-- round(count / den * 100). -/
def pct (count den : Nat) : ℤ := pyRound ((count : ℚ) / (den : ℚ) * 100)

/-- The summary block of the dashboard. -/
structure Summary where
  total_mentions : Nat
  positive_pct : ℤ
  neutral_pct : ℤ
  negative_pct : ℤ
  negative_count : Nat
deriving DecidableEq

/-- Today's summary statistics: positive and neutral percentages are
rounded shares, the negative percentage is 100 minus the two, clamped
at 0. -/
def summaryOf (l : List ClassifiedMention) : Summary :=
  let t := pctDen l.length
  let pos_pct := pct (l.countP (fun m => m.sentiment == "positive")) t
  let neu_pct := pct (l.countP (fun m => m.sentiment == "neutral")) t
  { total_mentions := l.length
    positive_pct := pos_pct
    neutral_pct := neu_pct
    negative_pct := max 0 (100 - pos_pct - neu_pct)
    negative_count := l.countP (fun m => m.sentiment == "negative") }

/-- CONFIG RESORTS: key and display name, in source order. -/
def RESORTS : List (String × String) :=
  [("fortress", "Fortress Mountain"), ("castle", "Castle Mountain"),
   ("nakiska", "Nakiska"), ("grandecache", "Grande Cache"),
   ("davidthompson", "David Thompson Region")]

/-- One per-location statistics row. -/
structure ResortStat where
  name : String
  total : Nat
  positive_pct : ℤ
  neutral_pct : ℤ
  negative_pct : ℤ
deriving DecidableEq

/-- The per-location breakdown for one location key: note that all
three percentages are independently rounded shares. -/
def resortStat (l : List ClassifiedMention) (rk name : String) : ResortStat :=
  let rm := l.filter (fun m => m.resort == rk)
  let rt := pctDen rm.length
  { name := name
    total := rm.length
    positive_pct := pct (rm.countP (fun m => m.sentiment == "positive")) rt
    neutral_pct := pct (rm.countP (fun m => m.sentiment == "neutral")) rt
    negative_pct := pct (rm.countP (fun m => m.sentiment == "negative")) rt }

/-- One aggregated theme row. -/
structure ThemeStat where
  name : String
  mentions : Nat
  avg_score : ℤ
  sentiment : String
deriving DecidableEq

/-- The per-theme aggregate: mean score over the theme's mentions, a
sentiment label thresholded on the unrounded mean, rounded average. -/
def theme_stat? (l : List ClassifiedMention) (theme : String) : Option ThemeStat :=
  let tm := l.filter (fun m => m.theme == theme)
  if tm.isEmpty then none
  else
    let avg : ℚ := ((tm.map (fun m => m.sentiment_score)).sum : ℤ) / (tm.length : ℚ)
    some { name := theme
           mentions := tm.length
           avg_score := pyRound avg
           sentiment := if 60 ≤ avg then "positive" else if avg ≤ 40 then "negative" else "neutral" }

/-- theme_data: themes with at least one mention, in taxonomy order. -/
def theme_data (l : List ClassifiedMention) : List ThemeStat :=
  (THEMES ++ GOV_THEMES).filterMap (theme_stat? l)

/-- Insert an element after every element le-before-or-equal to it: the
building block of a stable sort. -/
def stableInsert (le : α → α → Bool) (a : α) : List α → List α
  | [] => [a]
  | b :: bs => if le b a then b :: stableInsert le a bs else a :: b :: bs

/-- A stable sort by the Boolean relation le, modelling Python sorted
(which is stable, also with reverse=True). -/
def stableSort (le : α → α → Bool) (l : List α) : List α :=
  l.foldl (fun acc x => stableInsert le x acc) []

/-- sorted_themes: theme rows by mention count, descending, stable. -/
def sorted_themes (l : List ClassifiedMention) : List ThemeStat :=
  stableSort (fun a b => decide (b.mentions ≤ a.mentions)) (theme_data l)

/-- One Government of Alberta item of the dashboard. -/
structure GovItem where
  title : String
  detail : String
  theme : String
  date : String
  sentiment : String
deriving DecidableEq

/-- Selection test of the gov item list: flagged government-related, or
classified into a government theme. -/
def gov_pred (m : ClassifiedMention) : Bool := m.is_gov || GOV_THEMES.contains m.theme

/-- Field projection of one gov item. -/
def gov_item_of (m : ClassifiedMention) : GovItem :=
  { title := m.takeaway, detail := strTake m.text 300, theme := m.theme,
    date := m.date, sentiment := m.sentiment }

/-- gov_items: the selected mentions in input order, first ten. -/
def gov_items (l : List ClassifiedMention) : List GovItem :=
  ((l.filter gov_pred).take 10).map gov_item_of

/-- One day's snapshot in the persisted history. -/
structure DailySnapshot where
  date : String
  total : Nat
  positive_pct : ℤ
  neutral_pct : ℤ
  negative_pct : ℤ
  themes : List (String × Nat)
deriving DecidableEq

/-- The persisted history: the daily list. -/
structure History where
  daily : List DailySnapshot
deriving DecidableEq

/-- Python l[-n:]: the most recent n entries. -/
def lastN (n : Nat) (l : List α) : List α := l.drop (l.length - n)

/-- The history merge: entries with today's date are removed, today's
entry appended, and the last 30 kept. -/
def mergeHistory (daily : List DailySnapshot) (entry : DailySnapshot) : List DailySnapshot :=
  lastN 30 ((daily.filter (fun d => d.date != entry.date)) ++ [entry])

/-- Today's history entry. -/
def today_entry_of (l : List ClassifiedMention) (s : Summary) (td : List ThemeStat)
    (today : String) : DailySnapshot :=
  { date := today, total := l.length, positive_pct := s.positive_pct,
    neutral_pct := s.neutral_pct, negative_pct := s.negative_pct,
    themes := td.map (fun t => (t.name, t.mentions)) }

/-- One entry of the recent-activity feed. -/
structure FeedItem where
  source : String
  resort : String
  sentiment : String
  text : String
  date : String
  engagement : String
  theme : String
  url : String
deriving DecidableEq

/-- The feed: mentions sorted by date string, most recent first (stable),
first fifty, with the text truncated to 300 characters. -/
def feed_of (l : List ClassifiedMention) : List FeedItem :=
  ((stableSort (fun a b => strLe b.date a.date) l).take 50).map
    (fun m => { source := m.source, resort := m.resort, sentiment := m.sentiment,
                text := strTake m.text 300, date := m.date, engagement := m.engagement,
                theme := m.theme, url := m.url })

/-- The dashboard structure built once per run.  The generated_at wall
clock field and the weekday labels of the trend chart are presentation
details outside the model. -/
structure Dashboard where
  date : String
  summary : Summary
  resort_stats : List (String × ResortStat)
  themes : List ThemeStat
  gov_alberta : List GovItem
  trend_positive : List ℤ
  trend_neutral : List ℤ
  trend_negative : List ℤ
  theme_trends : List (String × List Nat)
  feed : List FeedItem
deriving DecidableEq

/-- build_dashboard_data as a pure function of the classified mentions,
the loaded history and today's date string; it returns the dashboard
and the rewritten history. -/
def build_dashboard_data (l : List ClassifiedMention) (history : History)
    (today : String) : Dashboard × History :=
  let s := summaryOf l
  let td := theme_data l
  let st := sorted_themes l
  let entry := today_entry_of l s td today
  let daily := mergeHistory history.daily entry
  let last7 := lastN 7 daily
  let top_keys := (st.take 4).map (fun t => t.name)
  ({ date := today
     summary := s
     resort_stats := RESORTS.map (fun p => (p.1, resortStat l p.1 p.2))
     themes := st
     gov_alberta := gov_items l
     trend_positive := last7.map (fun d => d.positive_pct)
     trend_neutral := last7.map (fun d => d.neutral_pct)
     trend_negative := last7.map (fun d => d.negative_pct)
     theme_trends := top_keys.map (fun tk => (tk, last7.map (fun d => (d.themes.lookup tk).getD 0)))
     feed := feed_of l },
   { daily := daily })

/-- Loading the persisted history at the start of build_dashboard_data:
an absent file yields the empty store; a present file whose contents the
JSON loader rejects raises, and the source has no handler for it, so the
model returns an error. -/
def load_history : Option (Option History) → Except Unit History
  | none => .ok { daily := [] }
  | some none => .error ()
  | some (some h) => .ok h

/-- The post-collection part of main: deduplicate, return early when no
mentions remain, otherwise classify and build the dashboard (loading
the history can raise, which propagates). -/
def run_pipeline (collected : List Mention) (hasKey : Bool)
    (respond : Nat → ServiceResponse) (stored : Option (Option History))
    (today : String) : Except Unit (Option (Dashboard × History)) :=
  let unique := dedup collected
  if unique.isEmpty then .ok none
  else
    match load_history stored with
    | .error e => .error e
    | .ok h => .ok (some (build_dashboard_data (analyze_mentions hasKey respond unique) h today))

/-- A concrete mention, first element of the sample batch. -/
def m0 : Mention :=
  { id := "m0", source := "News", resort := "fortress", text := "snow report",
    url := "u0", date := "2026-01-05", engagement := "Article", author := "a0", is_gov := false }

/-- A concrete mention, second element of the sample batch. -/
def m1 : Mention :=
  { id := "m1", source := "News", resort := "castle", text := "lift line",
    url := "u1", date := "2026-01-06", engagement := "Article", author := "a1", is_gov := false }

/-- A concrete mention, third element of the sample batch. -/
def m2 : Mention :=
  { id := "m2", source := "Social/Web", resort := "nakiska", text := "trail update",
    url := "u2", date := "2026-01-07", engagement := "Web mention", author := "a2", is_gov := false }

/-- A sample batch of three mentions. -/
def batch3 : List Mention := [m0, m1, m2]

/-- A duplicate of m0: same id, different text. -/
def m0dup : Mention :=
  { id := "m0", source := "YouTube", resort := "fortress", text := "snow report copy",
    url := "u0b", date := "2026-01-08", engagement := "Video", author := "a3", is_gov := false }

/-- A mention whose text triggers positive keywords of the fallback
classifier. -/
def mPos : Mention :=
  { id := "p", source := "News", resort := "fortress", text := "Amazing powder, best day ever",
    url := "up", date := "2026-01-09", engagement := "Article", author := "ap", is_gov := false }

/-- A mention with empty text: no keyword of any kind matches. -/
def mBlank : Mention :=
  { id := "z", source := "News", resort := "castle", text := "",
    url := "uz", date := "2026-01-10", engagement := "Article", author := "az", is_gov := false }

/-- A successful service response carrying only indices 0 and 2 for a
batch of three. -/
def items02 : List ServiceItem :=
  [{ index := 0, sentiment := "positive", sentiment_score := 80,
     theme := "Snow Conditions", takeaway := "t0" },
   { index := 2, sentiment := "negative", sentiment_score := 20,
     theme := "Trails & Recreation", takeaway := "t2" }]

/-- A classified government-related mention dated earlier. -/
def cmOld : ClassifiedMention :=
  { toMention :=
      { id := "g1", source := "News", resort := "fortress", text := "crown land review",
        url := "ug1", date := "2026-01-01", engagement := "Article", author := "ag1", is_gov := true }
    sentiment := "neutral", sentiment_score := 50,
    theme := "Regulatory Approvals & Land Use", takeaway := "old item" }

/-- A classified government-related mention dated later. -/
def cmNew : ClassifiedMention :=
  { toMention :=
      { id := "g2", source := "News", resort := "fortress", text := "tourism levy news",
        url := "ug2", date := "2026-02-01", engagement := "Article", author := "ag2", is_gov := true }
    sentiment := "neutral", sentiment_score := 50,
    theme := "Tourism Strategy & Policy", takeaway := "new item" }

/-- A classified positive mention at the fortress location. -/
def cmP : ClassifiedMention :=
  { toMention :=
      { id := "c1", source := "News", resort := "fortress", text := "x1",
        url := "uc1", date := "2026-03-01", engagement := "Article", author := "ac1", is_gov := false }
    sentiment := "positive", sentiment_score := 80,
    theme := "Snow Conditions", takeaway := "k1" }

/-- A classified neutral mention at the fortress location. -/
def cmN : ClassifiedMention :=
  { toMention :=
      { id := "c2", source := "News", resort := "fortress", text := "x2",
        url := "uc2", date := "2026-03-02", engagement := "Article", author := "ac2", is_gov := false }
    sentiment := "neutral", sentiment_score := 50,
    theme := "Snow Conditions", takeaway := "k2" }

/-- A classified negative mention at the fortress location. -/
def cmG : ClassifiedMention :=
  { toMention :=
      { id := "c3", source := "News", resort := "fortress", text := "x3",
        url := "uc3", date := "2026-03-03", engagement := "Article", author := "ac3", is_gov := false }
    sentiment := "negative", sentiment_score := 20,
    theme := "Lift Wait Times", takeaway := "k3" }

/-! Helper lemmas about the round-half-to-even rounding. -/

theorem floor_le_pyRound (q : ℚ) : ⌊q⌋ ≤ pyRound q := by
  unfold pyRound; split_ifs <;> omega

theorem pyRound_le_floor_add_one (q : ℚ) : pyRound q ≤ ⌊q⌋ + 1 := by
  unfold pyRound; split_ifs <;> omega

theorem floor_cast_eq_sub_fract (q : ℚ) : (⌊q⌋ : ℚ) = q - Int.fract q := by
  have h := Int.floor_add_fract q
  linarith

theorem pyRound_cases (q : ℚ) :
    (pyRound q : ℚ) < q + 1/2 ∨
      (Int.fract q = 1/2 ∧ ⌊q⌋ % 2 = 1 ∧ pyRound q = ⌊q⌋ + 1) := by
  have hfa := floor_cast_eq_sub_fract q
  have h0 : (0:ℚ) ≤ Int.fract q := Int.fract_nonneg q
  have h1 : Int.fract q < 1 := Int.fract_lt_one q
  unfold pyRound
  split_ifs with hlt hgt hev
  · left; linarith
  · left; push_cast; linarith
  · left
    have hf : Int.fract q = 1/2 := le_antisymm (not_lt.mp hgt) (not_lt.mp hlt)
    linarith
  · right
    have hf : Int.fract q = 1/2 := le_antisymm (not_lt.mp hgt) (not_lt.mp hlt)
    exact ⟨hf, by omega, rfl⟩

theorem pyRound_le_add_half (q : ℚ) : (pyRound q : ℚ) ≤ q + 1/2 := by
  rcases pyRound_cases q with h | ⟨hf, _, hv⟩
  · linarith
  · have hfa := floor_cast_eq_sub_fract q
    rw [hv]; push_cast; rw [hf] at hfa; linarith

theorem sub_half_le_pyRound (q : ℚ) : q - 1/2 ≤ (pyRound q : ℚ) := by
  have h1 : Int.fract q < 1 := Int.fract_lt_one q
  have h0 : (0:ℚ) ≤ Int.fract q := Int.fract_nonneg q
  have hfa := floor_cast_eq_sub_fract q
  unfold pyRound
  split_ifs with hlt hgt hev
  · linarith
  · push_cast; linarith
  · have hf : Int.fract q = 1/2 := le_antisymm (not_lt.mp hgt) (not_lt.mp hlt)
    linarith
  · have hf : Int.fract q = 1/2 := le_antisymm (not_lt.mp hgt) (not_lt.mp hlt)
    push_cast; linarith

theorem pyRound_pair_le (x y : ℚ) (hxy : x + y ≤ 100) :
    pyRound x + pyRound y ≤ 100 := by
  rcases pyRound_cases x with hx | ⟨hfx, hox, hvx⟩ <;>
    rcases pyRound_cases y with hy | ⟨hfy, hoy, hvy⟩
  · have h : ((pyRound x + pyRound y : ℤ) : ℚ) < 101 := by push_cast; linarith
    have h2 : (pyRound x + pyRound y : ℤ) < 101 := by exact_mod_cast h
    omega
  · have hfb := floor_cast_eq_sub_fract y
    rw [hfy] at hfb
    have hyv : (pyRound y : ℚ) = y + 1/2 := by rw [hvy]; push_cast; linarith
    have h : ((pyRound x + pyRound y : ℤ) : ℚ) < 101 := by push_cast; push_cast at hyv; linarith
    have h2 : (pyRound x + pyRound y : ℤ) < 101 := by exact_mod_cast h
    omega
  · have hfb := floor_cast_eq_sub_fract x
    rw [hfx] at hfb
    have hxv : (pyRound x : ℚ) = x + 1/2 := by rw [hvx]; push_cast; linarith
    have h : ((pyRound x + pyRound y : ℤ) : ℚ) < 101 := by push_cast; push_cast at hxv; linarith
    have h2 : (pyRound x + pyRound y : ℤ) < 101 := by exact_mod_cast h
    omega
  · have hfa := floor_cast_eq_sub_fract x
    have hfb := floor_cast_eq_sub_fract y
    rw [hfx] at hfa; rw [hfy] at hfb
    have hsum : ((⌊x⌋ + ⌊y⌋ : ℤ) : ℚ) ≤ 99 := by push_cast; linarith
    have hsum2 : ⌊x⌋ + ⌊y⌋ ≤ 99 := by exact_mod_cast hsum
    rw [hvx, hvy]; omega

theorem pyRound_nonneg (q : ℚ) (h : 0 ≤ q) : 0 ≤ pyRound q := by
  have h1 := floor_le_pyRound q
  have h2 : 0 ≤ ⌊q⌋ := Int.floor_nonneg.mpr h
  omega

theorem pyRound_le_hundred (q : ℚ) (h : q ≤ 100) : pyRound q ≤ 100 := by
  have h1 := pyRound_le_add_half q
  have h2 : ((pyRound q : ℤ) : ℚ) < 101 := by linarith
  have h3 : (pyRound q : ℤ) < 101 := by exact_mod_cast h2
  omega

/-! Helper lemmas for the percentage aggregation. -/

theorem countP_disjoint_add_le (p q : α → Bool) (l : List α)
    (h : ∀ a, p a = true → q a = false) :
    l.countP p + l.countP q ≤ l.length := by
  induction l with
  | nil => simp
  | cons a t ih =>
    rw [List.countP_cons, List.countP_cons, List.length_cons]
    by_cases hp : p a = true
    · have hq := h a hp
      simp [hp, hq]
      omega
    · have hp' : p a = false := by revert hp; cases p a <;> simp
      by_cases hq : q a = true
      · simp [hp', hq]; omega
      · have hq' : q a = false := by revert hq; cases q a <;> simp
        simp [hp', hq']; omega

theorem sum_with_clamp (A B : ℤ) (hAB : A + B ≤ 100) :
    A + B + max 0 (100 - A - B) = 100 := by
  rw [max_eq_right (by omega)]; ring

theorem summaryOf_positive_pct (l : List ClassifiedMention) :
    (summaryOf l).positive_pct =
      pct (l.countP (fun m => m.sentiment == "positive")) (pctDen l.length) := rfl

theorem summaryOf_neutral_pct (l : List ClassifiedMention) :
    (summaryOf l).neutral_pct =
      pct (l.countP (fun m => m.sentiment == "neutral")) (pctDen l.length) := rfl

theorem summaryOf_negative_pct (l : List ClassifiedMention) :
    (summaryOf l).negative_pct =
      max 0 (100 - (summaryOf l).positive_pct - (summaryOf l).neutral_pct) := rfl

/-- Claim C2: whenever the total classified mention count is positive,
the summary percentages satisfy positive_pct + neutral_pct +
negative_pct = 100, with positive_pct and neutral_pct the rounded
shares and negative_pct the clamped remainder. -/
theorem summary_percentages_sum_to_100 (l : List ClassifiedMention) (h : 0 < l.length) :
    (summaryOf l).positive_pct + (summaryOf l).neutral_pct + (summaryOf l).negative_pct = 100 := by
  have hdis : ∀ m : ClassifiedMention,
      (m.sentiment == "positive") = true → (m.sentiment == "neutral") = false := by
    intro m hm
    have h1 : m.sentiment = "positive" := by simpa using hm
    simp [h1]
  have hcnt := countP_disjoint_add_le _ _ l hdis
  have hden : pctDen l.length = l.length := by
    unfold pctDen
    rw [if_neg (by omega)]
  have htq : (0:ℚ) < (l.length : ℚ) := by exact_mod_cast h
  have hab : ((l.countP (fun m => m.sentiment == "positive") : ℚ) / (l.length : ℚ) * 100) +
      ((l.countP (fun m => m.sentiment == "neutral") : ℚ) / (l.length : ℚ) * 100) ≤ 100 := by
    rw [div_mul_eq_mul_div, div_mul_eq_mul_div, div_add_div_same, div_le_iff₀ htq]
    have hc : (l.countP (fun m => m.sentiment == "positive") : ℚ) +
        (l.countP (fun m => m.sentiment == "neutral") : ℚ) ≤ (l.length : ℚ) := by
      exact_mod_cast hcnt
    nlinarith
  have hpair := pyRound_pair_le _ _ hab
  rw [summaryOf_negative_pct, summaryOf_positive_pct, summaryOf_neutral_pct, hden]
  exact sum_with_clamp _ _ hpair

/-- Concrete instantiation of the claim C2 theorem at a one-element
mention set. -/
theorem summary_percentages_sum_to_100_witness :
    0 < ([cmP] : List ClassifiedMention).length ∧
    (summaryOf [cmP]).positive_pct + (summaryOf [cmP]).neutral_pct +
      (summaryOf [cmP]).negative_pct = 100 :=
  ⟨by decide, summary_percentages_sum_to_100 [cmP] (by decide)⟩

/-! Helper lemmas about the rolling history. -/

theorem lastN_length_le (n : Nat) (l : List α) : (lastN n l).length ≤ n := by
  unfold lastN
  rw [List.length_drop]
  omega

theorem lastN_suffix (n : Nat) (l : List α) : List.IsSuffix (lastN n l) l :=
  List.drop_suffix _ _

theorem lastN_append_singleton (n : Nat) (hn : 0 < n) (l : List α) (e : α) :
    lastN n (l ++ [e]) = lastN (n - 1) l ++ [e] := by
  unfold lastN
  simp only [List.length_append, List.length_cons, List.length_nil]
  rw [List.drop_append_eq_append_drop]
  have h2 : l.length + (0 + 1) - n - l.length = 0 := by omega
  have h3 : l.length + (0 + 1) - n = l.length - (n - 1) := by omega
  rw [h2, h3, List.drop_zero]

theorem mergeHistory_eq (daily : List DailySnapshot) (e : DailySnapshot) :
    mergeHistory daily e =
      lastN 29 (daily.filter (fun d => d.date != e.date)) ++ [e] := by
  unfold mergeHistory
  exact lastN_append_singleton 30 (by omega) _ e

theorem countP_filtered_eq_zero (daily : List DailySnapshot) (e : DailySnapshot) :
    (daily.filter (fun d => d.date != e.date)).countP (fun d => d.date == e.date) = 0 := by
  rw [List.countP_eq_zero]
  intro a ha
  have h1 := List.of_mem_filter ha
  simp at h1 ⊢
  exact h1

theorem self_mem_mergeHistory (daily : List DailySnapshot) (e : DailySnapshot) :
    e ∈ mergeHistory daily e := by
  rw [mergeHistory_eq]
  exact List.mem_append_right _ (by simp)

/-- Claim C4: after every history merge the store holds exactly one
snapshot for the merged entry's date, never exceeds 30 entries, and is
a suffix (most recent entries) of the filtered history with today's
entry appended, so the oldest entries are the ones dropped. -/
theorem history_merge_invariants (daily : List DailySnapshot) (e : DailySnapshot) :
    (mergeHistory daily e).countP (fun d => d.date == e.date) = 1 ∧
    (mergeHistory daily e).length ≤ 30 ∧
    List.IsSuffix (mergeHistory daily e)
      (daily.filter (fun d => d.date != e.date) ++ [e]) := by
  refine ⟨?_, ?_, ?_⟩
  · rw [mergeHistory_eq, List.countP_append]
    have h0 := countP_filtered_eq_zero daily e
    have hsub : List.Sublist (lastN 29 (daily.filter (fun d => d.date != e.date)))
        (daily.filter (fun d => d.date != e.date)) := List.drop_sublist _ _
    have hle := hsub.countP_le (fun d => d.date == e.date)
    have h1 : ([e] : List DailySnapshot).countP (fun d => d.date == e.date) = 1 := by simp
    omega
  · unfold mergeHistory
    exact lastN_length_le 30 _
  · rw [mergeHistory_eq]
    obtain ⟨t, ht⟩ := lastN_suffix 29 (daily.filter (fun d => d.date != e.date))
    exact ⟨t, by rw [← List.append_assoc, ht]⟩

/-! Evaluation helpers for the rounding on concrete inputs. -/

theorem pyRound_zero : pyRound 0 = 0 := by
  unfold pyRound
  rw [Int.fract_zero]
  norm_num

theorem pct_zero (d : Nat) : pct 0 d = 0 := by
  unfold pct
  have h : ((0:ℕ):ℚ) / (d:ℚ) * 100 = 0 := by
    push_cast
    rw [zero_div, zero_mul]
  rw [h, pyRound_zero]

theorem pyRound_eq_low (q : ℚ) (k : ℤ) (h1 : (k:ℚ) ≤ q) (h2 : q < (k:ℚ) + 1/2) :
    pyRound q = k := by
  have hf : ⌊q⌋ = k := Int.floor_eq_iff.mpr ⟨h1, by linarith⟩
  have hfr : Int.fract q < 1/2 := by
    have hc := floor_cast_eq_sub_fract q
    rw [hf] at hc
    linarith
  unfold pyRound
  rw [if_pos hfr, hf]

theorem summary_empty_stats :
    (summaryOf ([] : List ClassifiedMention)).positive_pct = 0 ∧
    (summaryOf ([] : List ClassifiedMention)).neutral_pct = 0 ∧
    (summaryOf ([] : List ClassifiedMention)).negative_pct = 100 := by
  have hp : (summaryOf ([] : List ClassifiedMention)).positive_pct = 0 := pct_zero 1
  have hn : (summaryOf ([] : List ClassifiedMention)).neutral_pct = 0 := pct_zero 1
  refine ⟨hp, hn, ?_⟩
  rw [summaryOf_negative_pct, hp, hn]
  norm_num

/-- Claim C3 counterexample: on an empty mention list the pipeline
returns before building anything (no dashboard, no history entry), and
a direct call of the aggregator on an empty list reports negative_pct
as 100, not 0. -/
theorem empty_input_produces_no_dashboard :
    run_pipeline [] true (fun _ => ServiceResponse.failure) none "2026-10-12" =
      Except.ok none ∧
    (build_dashboard_data [] { daily := [] } "2026-10-12").1.summary.negative_pct = 100 := by
  exact ⟨rfl, summary_empty_stats.2.2⟩

/-- Claim C3 amended: an empty mention list is not an error, but the
pipeline exits early and produces no dashboard and no history entry;
when the aggregator itself runs on an empty list it yields
total_mentions 0, positive and neutral percentages 0, negative
percentage 100 (not 0), empty theme, government and feed lists, and a
history entry for the given date with total 0. -/
theorem empty_input_behavior (hk : Bool) (respond : Nat → ServiceResponse)
    (stored : Option (Option History)) (h : History) (today : String) :
    run_pipeline [] hk respond stored today = Except.ok none ∧
    (build_dashboard_data [] h today).1.summary.total_mentions = 0 ∧
    (build_dashboard_data [] h today).1.summary.positive_pct = 0 ∧
    (build_dashboard_data [] h today).1.summary.neutral_pct = 0 ∧
    (build_dashboard_data [] h today).1.summary.negative_pct = 100 ∧
    (build_dashboard_data [] h today).1.themes = [] ∧
    (build_dashboard_data [] h today).1.gov_alberta = [] ∧
    (build_dashboard_data [] h today).1.feed = [] ∧
    ∃ e ∈ (build_dashboard_data [] h today).2.daily, e.date = today ∧ e.total = 0 := by
  refine ⟨rfl, rfl, summary_empty_stats.1, summary_empty_stats.2.1,
    summary_empty_stats.2.2, rfl, rfl, rfl, ?_⟩
  exact ⟨today_entry_of [] (summaryOf []) (theme_data []) today,
    self_mem_mergeHistory h.daily _, rfl, rfl⟩

/-! The batch classifier merge on a successful response. -/

theorem merge_results_nonneg (batch : List Mention) (items : List ServiceItem)
    (hpos : ∀ r ∈ items, 0 ≤ r.index) (acc : List ClassifiedMention) :
    merge_results batch items acc =
      (acc ++ items.filterMap
        (fun r => (batch[r.index.toNat]?).map (fun m => apply_result m r)), false) := by
  induction items generalizing acc with
  | nil => simp [merge_results]
  | cons r rs ih =>
    have hr : 0 ≤ r.index := hpos r (List.mem_cons_self r rs)
    have hrs : ∀ x ∈ rs, 0 ≤ x.index := fun x hx => hpos x (List.mem_cons_of_mem r hx)
    by_cases hidx : r.index < (batch.length : ℤ)
    · have hlt : r.index.toNat < batch.length := by omega
      have hsome : (batch[r.index.toNat]?) = some batch[r.index.toNat] :=
        List.getElem?_eq_getElem hlt
      have hg : pyGet? batch r.index = some batch[r.index.toNat] := by
        unfold pyGet?
        rw [if_pos hr]
        exact hsome
      simp only [merge_results]
      rw [if_pos hidx, hg]
      simp [ih hrs, List.filterMap_cons, hsome]
    · have hnone : (batch[r.index.toNat]?) = none := by
        apply List.getElem?_eq_none
        omega
      simp only [merge_results]
      rw [if_neg hidx, ih hrs]
      simp [List.filterMap_cons, hnone]

/-- Claim C1 amended: on a successful, well-formed service response
whose indices are all nonnegative, the merged batch output has exactly
one service-classified entry per returned index below the batch size,
in response order; batch mentions whose index is not returned are
dropped, not fallback-classified, and returned indices at or above the
batch size are ignored without raising.  The one-output-per-input
guarantee does hold on the failure path, where the whole batch is
fallback-classified. -/
theorem analyze_batch_success_merge (batch : List Mention) (items : List ServiceItem)
    (hpos : ∀ r ∈ items, 0 ≤ r.index) :
    analyze_batch batch (ServiceResponse.success items) =
      items.filterMap (fun r => (batch[r.index.toNat]?).map (fun m => apply_result m r)) ∧
    (analyze_batch batch ServiceResponse.failure).length = batch.length := by
  constructor
  · have h := merge_results_nonneg batch items hpos []
    simp only [analyze_batch]
    rw [h]
    simp
  · simp [analyze_batch, fallback_analysis]

/-- Concrete instantiation of the claim C1 amended theorem at the
sample batch of three and the response carrying indices 0 and 2. -/
theorem analyze_batch_success_merge_witness :
    (∀ r ∈ items02, 0 ≤ r.index) ∧
    analyze_batch batch3 (ServiceResponse.success items02) =
      items02.filterMap (fun r => (batch3[r.index.toNat]?).map (fun m => apply_result m r)) :=
  ⟨by decide, (analyze_batch_success_merge batch3 items02 (by decide)).1⟩

/-- Claim C1 counterexample: a successful response carrying only
indices 0 and 2 for a batch of three yields a merged output of length
two in which no entry comes from the middle mention: that mention is
dropped, not fallback-classified, so the output does not contain
exactly one classified mention per input mention. -/
theorem batch_partial_response_drops_mention :
    (analyze_mentions true (fun _ => ServiceResponse.success items02) batch3).length = 2 ∧
    ∀ c ∈ analyze_mentions true (fun _ => ServiceResponse.success items02) batch3,
      c.id ≠ "m1" := by decide

/-! The fallback classifier. -/

theorem fallback_one_sentiment (m : Mention) :
    (fallback_one m).sentiment =
      (if neg_count m.text < pos_count m.text then "positive"
       else if pos_count m.text < neg_count m.text then "negative" else "neutral") := rfl

theorem fallback_one_score (m : Mention) :
    (fallback_one m).sentiment_score =
      (if neg_count m.text < pos_count m.text then min (50 + 12 * (pos_count m.text : ℤ)) 95
       else if pos_count m.text < neg_count m.text then max (50 - 12 * (neg_count m.text : ℤ)) 5
       else 50) := rfl

theorem fallback_one_theme (m : Mention) :
    (fallback_one m).theme = detect_theme (strLower m.text) := rfl

/-- Claim C5: the fallback classifier is a pure function of the text;
with p positive and n negative keyword matches it labels positive with
score min(50 + 12p, 95) when p exceeds n, negative with score
max(50 - 12n, 5) when n exceeds p, neutral with score 50 otherwise, and
its score always lies in the interval from 5 to 95. -/
theorem fallback_classifier_cases_and_bounds (m : Mention) :
    (neg_count m.text < pos_count m.text →
      (fallback_one m).sentiment = "positive" ∧
      (fallback_one m).sentiment_score = min (50 + 12 * (pos_count m.text : ℤ)) 95) ∧
    (pos_count m.text < neg_count m.text →
      (fallback_one m).sentiment = "negative" ∧
      (fallback_one m).sentiment_score = max (50 - 12 * (neg_count m.text : ℤ)) 5) ∧
    (pos_count m.text = neg_count m.text →
      (fallback_one m).sentiment = "neutral" ∧ (fallback_one m).sentiment_score = 50) ∧
    5 ≤ (fallback_one m).sentiment_score ∧ (fallback_one m).sentiment_score ≤ 95 ∧
    ∀ n : Mention, n.text = m.text →
      (fallback_one n).sentiment = (fallback_one m).sentiment ∧
      (fallback_one n).sentiment_score = (fallback_one m).sentiment_score ∧
      (fallback_one n).theme = (fallback_one m).theme := by
  refine ⟨?_, ?_, ?_, ?_, ?_, ?_⟩
  · intro h
    rw [fallback_one_sentiment, fallback_one_score, if_pos h, if_pos h]
    exact ⟨rfl, rfl⟩
  · intro h
    have h2 : ¬ (neg_count m.text < pos_count m.text) := by omega
    rw [fallback_one_sentiment, fallback_one_score, if_neg h2, if_neg h2, if_pos h, if_pos h]
    exact ⟨rfl, rfl⟩
  · intro h
    have h2 : ¬ (neg_count m.text < pos_count m.text) := by omega
    have h3 : ¬ (pos_count m.text < neg_count m.text) := by omega
    rw [fallback_one_sentiment, fallback_one_score, if_neg h2, if_neg h2, if_neg h3, if_neg h3]
    exact ⟨rfl, rfl⟩
  · rw [fallback_one_score]
    split_ifs with h1 h2
    · refine le_min (by omega) (by omega)
    · exact le_max_right _ _
    · omega
  · rw [fallback_one_score]
    split_ifs with h1 h2
    · exact min_le_right _ _
    · refine max_le (by omega) (by omega)
    · omega
  · intro n h
    refine ⟨?_, ?_, ?_⟩
    · rw [fallback_one_sentiment, fallback_one_sentiment, h]
    · rw [fallback_one_score, fallback_one_score, h]
    · rw [fallback_one_theme, fallback_one_theme, h]

/-- Concrete instantiation of the claim C5 theorem at a mention with
three positive keyword matches and none negative. -/
theorem fallback_classifier_cases_and_bounds_witness :
    neg_count mPos.text < pos_count mPos.text ∧
    (fallback_one mPos).sentiment = "positive" ∧
    (fallback_one mPos).sentiment_score = min (50 + 12 * (pos_count mPos.text : ℤ)) 95 ∧
    5 ≤ (fallback_one mPos).sentiment_score :=
  ⟨by decide, ((fallback_classifier_cases_and_bounds mPos).1 (by decide)).1,
   ((fallback_classifier_cases_and_bounds mPos).1 (by decide)).2,
   (fallback_classifier_cases_and_bounds mPos).2.2.2.1⟩

theorem theme_keywords_names_in_taxonomy :
    ∀ p ∈ theme_keywords, p.1 ∈ THEMES ++ GOV_THEMES := by decide

/-- Claim C10: the theme the fallback classifier assigns is always a
member of the fixed taxonomy of twelve general plus three government
themes; it is the first entry of the ordered keyword table with a
matching keyword, and the default Trails & Recreation, itself a
taxonomy member, when nothing matches. -/
theorem fallback_theme_in_taxonomy (m : Mention) :
    (fallback_one m).theme ∈ THEMES ++ GOV_THEMES ∧
    (theme_keywords.find? (fun p => p.2.any (fun k => strContains (strLower m.text) k)) = none →
      (fallback_one m).theme = "Trails & Recreation") ∧
    ∀ pr, theme_keywords.find? (fun p => p.2.any (fun k => strContains (strLower m.text) k)) = some pr →
      (fallback_one m).theme = pr.1 := by
  refine ⟨?_, ?_, ?_⟩
  · rw [fallback_one_theme]
    unfold detect_theme
    cases hf : theme_keywords.find? (fun p => p.2.any (fun k => strContains (strLower m.text) k)) with
    | none => decide
    | some p => exact theme_keywords_names_in_taxonomy p (List.mem_of_find?_eq_some hf)
  · intro h
    rw [fallback_one_theme]
    unfold detect_theme
    rw [h]
  · intro pr h
    rw [fallback_one_theme]
    unfold detect_theme
    rw [h]

/-- Concrete instantiation of the claim C10 theorem at a mention whose
empty text matches no keyword: the default theme is assigned and lies
in the taxonomy. -/
theorem fallback_theme_in_taxonomy_witness :
    (fallback_one mBlank).theme = "Trails & Recreation" ∧
    (fallback_one mBlank).theme ∈ THEMES ++ GOV_THEMES :=
  ⟨(fallback_theme_in_taxonomy mBlank).2.1 (by decide),
   (fallback_theme_in_taxonomy mBlank).1⟩

/-! The deduplicator. -/

theorem dedupGo_sublist (seen : List String) (l : List Mention) :
    List.Sublist (dedupGo seen l) l := by
  induction l generalizing seen with
  | nil => simp [dedupGo]
  | cons m ms ih =>
    simp only [dedupGo]
    split_ifs with h
    · exact List.Sublist.cons m (ih seen)
    · exact List.Sublist.cons₂ m (ih (m.id :: seen))

theorem dedupGo_ids_nodup (seen : List String) (l : List Mention) :
    ((dedupGo seen l).map (fun m => m.id)).Nodup ∧
    ∀ m ∈ dedupGo seen l, m.id ∉ seen := by
  induction l generalizing seen with
  | nil => exact ⟨List.nodup_nil, by simp [dedupGo]⟩
  | cons m ms ih =>
    simp only [dedupGo]
    split_ifs with h
    · exact ih seen
    · obtain ⟨hnd, hmem⟩ := ih (m.id :: seen)
      refine ⟨?_, ?_⟩
      · rw [List.map_cons, List.nodup_cons]
        refine ⟨?_, hnd⟩
        intro hmm
        obtain ⟨x, hx, hxid⟩ := List.mem_map.mp hmm
        have hxs := hmem x hx
        rw [hxid] at hxs
        exact hxs (List.mem_cons_self m.id seen)
      · intro x hx
        rcases List.mem_cons.mp hx with rfl | hx'
        · exact h
        · exact fun hs => hmem x hx' (List.mem_cons_of_mem _ hs)

theorem dedupGo_complete (seen : List String) (l : List Mention) :
    ∀ m ∈ l, m.id ∈ seen ∨ ∃ n ∈ dedupGo seen l, n.id = m.id := by
  induction l generalizing seen with
  | nil => simp
  | cons a t ih =>
    intro m hm
    rcases List.mem_cons.mp hm with rfl | hmt
    · by_cases h : m.id ∈ seen
      · exact Or.inl h
      · exact Or.inr ⟨m, by simp [dedupGo, h], rfl⟩
    · by_cases h : a.id ∈ seen
      · have hres := ih seen m hmt
        simpa [dedupGo, h] using hres
      · rcases ih (a.id :: seen) m hmt with hin | ⟨n, hn, hid⟩
        · rcases List.mem_cons.mp hin with heq | hseen
          · exact Or.inr ⟨a, by simp [dedupGo, h], heq.symm⟩
          · exact Or.inl hseen
        · refine Or.inr ⟨n, ?_, hid⟩
          simp only [dedupGo]
          rw [if_neg h]
          exact List.mem_cons_of_mem a hn

theorem dedupGo_first (seen : List String) (l : List Mention) :
    ∀ n ∈ dedupGo seen l, l.find? (fun m => m.id == n.id) = some n := by
  induction l generalizing seen with
  | nil => simp [dedupGo]
  | cons a t ih =>
    intro n hn
    by_cases h : a.id ∈ seen
    · have hn' : n ∈ dedupGo seen t := by
        simp only [dedupGo] at hn
        rwa [if_pos h] at hn
      have hns : n.id ∉ seen := (dedupGo_ids_nodup seen t).2 n hn'
      have hne : a.id ≠ n.id := fun he => hns (he ▸ h)
      rw [List.find?_cons_of_neg _ (by simpa using hne)]
      exact ih seen n hn'
    · have heq : dedupGo seen (a :: t) = a :: dedupGo (a.id :: seen) t := by
        simp only [dedupGo]
        rw [if_neg h]
      rw [heq] at hn
      rcases List.mem_cons.mp hn with rfl | hn'
      · rw [List.find?_cons_of_pos _ (by simp)]
      · have hns : n.id ∉ (a.id :: seen) := (dedupGo_ids_nodup (a.id :: seen) t).2 n hn'
        have hne : a.id ≠ n.id := by
          intro he
          exact hns (by rw [← he]; exact List.mem_cons_self a.id seen)
        rw [List.find?_cons_of_neg _ (by simpa using hne)]
        exact ih (a.id :: seen) n hn'

theorem dedupGo_eq_self (seen : List String) (l : List Mention)
    (hnd : (l.map (fun m => m.id)).Nodup) (hdisj : ∀ m ∈ l, m.id ∉ seen) :
    dedupGo seen l = l := by
  induction l generalizing seen with
  | nil => rfl
  | cons a t ih =>
    have ha : a.id ∉ seen := hdisj a (List.mem_cons_self a t)
    rw [List.map_cons, List.nodup_cons] at hnd
    simp only [dedupGo]
    rw [if_neg ha]
    congr 1
    refine ih (a.id :: seen) hnd.2 ?_
    intro m hm hmem
    rcases List.mem_cons.mp hmem with he | hseen
    · exact hnd.1 (he ▸ List.mem_map_of_mem (fun m => m.id) hm)
    · exact hdisj m (List.mem_cons_of_mem a hm) hseen

/-- Claim C6: the deduplicator returns a subsequence of its input (so
first-seen order is preserved) whose ids are pairwise distinct, every
input id is represented, each kept mention is the first input element
bearing its id, and deduplicating a second time changes nothing. -/
theorem dedup_unique_first_order_idempotent (l : List Mention) :
    List.Sublist (dedup l) l ∧
    ((dedup l).map (fun m => m.id)).Nodup ∧
    (∀ m ∈ l, ∃ n ∈ dedup l, n.id = m.id) ∧
    (∀ n ∈ dedup l, l.find? (fun m => m.id == n.id) = some n) ∧
    dedup (dedup l) = dedup l := by
  refine ⟨dedupGo_sublist [] l, (dedupGo_ids_nodup [] l).1, ?_, dedupGo_first [] l, ?_⟩
  · intro m hm
    rcases dedupGo_complete [] l m hm with hin | h
    · simp at hin
    · exact h
  · exact dedupGo_eq_self [] (dedup l) (dedupGo_ids_nodup [] l).1 (fun m _ => by simp)

/-- Concrete instantiation of the claim C6 theorem at a list with a
duplicated id. -/
theorem dedup_unique_first_order_idempotent_witness :
    dedup [m0, m1, m0dup] = [m0, m1] ∧
    ∀ m ∈ ([m0, m1, m0dup] : List Mention),
      ∃ n ∈ dedup [m0, m1, m0dup], n.id = m.id :=
  ⟨by decide, (dedup_unique_first_order_idempotent [m0, m1, m0dup]).2.2.1⟩

/-- Claim C7 counterexample: a present but unparseable history file
makes the run fail: the loader error propagates out of the pipeline
instead of the store being treated as empty. -/
theorem corrupted_history_propagates :
    run_pipeline [m0] true (fun _ => ServiceResponse.failure) (some none) "2026-10-12" =
      Except.error () ∧
    load_history (some none) ≠ Except.ok { daily := [] } := by
  refine ⟨rfl, ?_⟩
  intro h
  simp [load_history] at h

/-- Claim C7 amended: a missing history file is treated as the empty
store and a parseable one is used as loaded, but a corrupted (present,
unparseable) history file raises: the exception propagates out of the
run, which produces nothing, rather than the store being treated as
empty. -/
theorem load_history_behavior :
    load_history none = Except.ok { daily := [] } ∧
    (∀ h : History, load_history (some (some h)) = Except.ok h) ∧
    ∀ (collected : List Mention) (hk : Bool) (respond : Nat → ServiceResponse) (today : String),
      dedup collected ≠ [] →
      run_pipeline collected hk respond (some none) today = Except.error () := by
  refine ⟨rfl, fun h => rfl, ?_⟩
  intro collected hk respond today hne
  unfold run_pipeline
  have he : (dedup collected).isEmpty = false := by
    cases hd : dedup collected with
    | nil => exact absurd hd hne
    | cons a t => rfl
  simp [he, load_history]

/-- Concrete instantiation of the claim C7 amended theorem at a
one-mention collection and a corrupted stored history. -/
theorem load_history_behavior_witness :
    dedup [m1] ≠ [] ∧
    run_pipeline [m1] false (fun _ => ServiceResponse.failure) (some none) "2026-10-12" =
      Except.error () :=
  ⟨by decide,
   load_history_behavior.2.2 [m1] false (fun _ => ServiceResponse.failure) "2026-10-12" (by decide)⟩

/-! The government item list. -/

/-- Claim C8 counterexample: two government-flagged mentions arriving
oldest first stay in input order in the government item list, which is
therefore not ordered most-recent-first by timestamp. -/
theorem gov_items_not_most_recent_first :
    (gov_items [cmOld, cmNew]).map (fun g => g.date) = ["2026-01-01", "2026-02-01"] ∧
    ¬ (gov_items [cmOld, cmNew]).Pairwise (fun a b => strLe b.date a.date = true) := by
  exact ⟨by decide, by decide⟩

/-- Claim C8 amended: the government item list consists of exactly the
mentions flagged government-related or classified into a government
theme, capped at ten, taken in input order (the first ten such
mentions) rather than sorted most-recent-first by timestamp. -/
theorem gov_items_first_ten_in_input_order (l : List ClassifiedMention) :
    (gov_items l).length = min (l.countP gov_pred) 10 ∧
    (∀ g ∈ gov_items l, ∃ m ∈ l, gov_pred m = true ∧ g = gov_item_of m) ∧
    ((l.filter gov_pred).length ≤ 10 →
      gov_items l = (l.filter gov_pred).map gov_item_of) := by
  refine ⟨?_, ?_, ?_⟩
  · unfold gov_items
    rw [List.length_map, List.length_take, List.countP_eq_length_filter]
    exact Nat.min_comm _ _
  · intro g hg
    unfold gov_items at hg
    obtain ⟨m, hm, rfl⟩ := List.mem_map.mp hg
    have hm2 : m ∈ l.filter gov_pred := List.mem_of_mem_take hm
    exact ⟨m, List.mem_of_mem_filter hm2, List.of_mem_filter hm2, rfl⟩
  · intro h
    unfold gov_items
    rw [List.take_of_length_le h]

/-- Concrete instantiation of the claim C8 amended theorem at a
two-mention government list, where the cap is not reached. -/
theorem gov_items_first_ten_in_input_order_witness :
    (([cmOld, cmNew] : List ClassifiedMention).filter gov_pred).length ≤ 10 ∧
    gov_items [cmOld, cmNew] =
      (([cmOld, cmNew] : List ClassifiedMention).filter gov_pred).map gov_item_of :=
  ⟨by decide, (gov_items_first_ten_in_input_order [cmOld, cmNew]).2.2 (by decide)⟩

/-! Per-location statistics. -/

theorem resortStat_positive_pct (l : List ClassifiedMention) (rk name : String) :
    (resortStat l rk name).positive_pct =
      pct ((l.filter (fun m => m.resort == rk)).countP (fun m => m.sentiment == "positive"))
        (pctDen (l.filter (fun m => m.resort == rk)).length) := rfl

theorem resortStat_neutral_pct (l : List ClassifiedMention) (rk name : String) :
    (resortStat l rk name).neutral_pct =
      pct ((l.filter (fun m => m.resort == rk)).countP (fun m => m.sentiment == "neutral"))
        (pctDen (l.filter (fun m => m.resort == rk)).length) := rfl

theorem resortStat_negative_pct (l : List ClassifiedMention) (rk name : String) :
    (resortStat l rk name).negative_pct =
      pct ((l.filter (fun m => m.resort == rk)).countP (fun m => m.sentiment == "negative"))
        (pctDen (l.filter (fun m => m.resort == rk)).length) := rfl

theorem countP_three_exhaustive (l : List ClassifiedMention)
    (hs : ∀ m ∈ l, m.sentiment = "positive" ∨ m.sentiment = "neutral" ∨ m.sentiment = "negative") :
    l.countP (fun m => m.sentiment == "positive") + l.countP (fun m => m.sentiment == "neutral") +
      l.countP (fun m => m.sentiment == "negative") = l.length := by
  induction l with
  | nil => rfl
  | cons a t ih =>
    have ha := hs a (List.mem_cons_self a t)
    have ht : ∀ m ∈ t, m.sentiment = "positive" ∨ m.sentiment = "neutral" ∨
        m.sentiment = "negative" := fun m hm => hs m (List.mem_cons_of_mem a hm)
    have ih2 := ih ht
    rw [List.countP_cons, List.countP_cons, List.countP_cons, List.length_cons]
    rcases ha with h | h | h <;> simp [h] <;> omega

theorem pct_bounds (c t : Nat) (hct : c ≤ t) (ht : 0 < t) :
    0 ≤ pct c t ∧ pct c t ≤ 100 := by
  unfold pct
  have htq : (0:ℚ) < (t:ℚ) := by exact_mod_cast ht
  have h0 : (0:ℚ) ≤ (c:ℚ) / (t:ℚ) * 100 := by positivity
  have h1 : (c:ℚ) / (t:ℚ) * 100 ≤ 100 := by
    rw [div_mul_eq_mul_div, div_le_iff₀ htq]
    have hc : (c:ℚ) ≤ (t:ℚ) := by exact_mod_cast hct
    nlinarith
  exact ⟨pyRound_nonneg _ h0, pyRound_le_hundred _ h1⟩

/-- Claim C9 amended: the per-location statistics round each of the
three percentages independently (negative_pct is a rounded share, not
the clamped remainder), so for a location with at least one mention
whose sentiments all lie in the three classes each percentage is
between 0 and 100 and the three sum to a value between 99 and 101,
not necessarily 100. -/
theorem resort_percentages_bounds (l : List ClassifiedMention) (rk name : String)
    (hne : l.filter (fun m => m.resort == rk) ≠ [])
    (hs : ∀ m ∈ l, m.sentiment = "positive" ∨ m.sentiment = "neutral" ∨
      m.sentiment = "negative") :
    (0 ≤ (resortStat l rk name).positive_pct ∧ (resortStat l rk name).positive_pct ≤ 100) ∧
    (0 ≤ (resortStat l rk name).neutral_pct ∧ (resortStat l rk name).neutral_pct ≤ 100) ∧
    (0 ≤ (resortStat l rk name).negative_pct ∧ (resortStat l rk name).negative_pct ≤ 100) ∧
    99 ≤ (resortStat l rk name).positive_pct + (resortStat l rk name).neutral_pct +
        (resortStat l rk name).negative_pct ∧
    (resortStat l rk name).positive_pct + (resortStat l rk name).neutral_pct +
        (resortStat l rk name).negative_pct ≤ 101 := by
  have hrt : 0 < (l.filter (fun m => m.resort == rk)).length := by
    cases hr : l.filter (fun m => m.resort == rk) with
    | nil => exact absurd hr hne
    | cons a t => simp [hr]
  have hden : pctDen (l.filter (fun m => m.resort == rk)).length =
      (l.filter (fun m => m.resort == rk)).length := by
    unfold pctDen
    rw [if_neg (by omega)]
  have hsrm : ∀ m ∈ l.filter (fun m => m.resort == rk),
      m.sentiment = "positive" ∨ m.sentiment = "neutral" ∨ m.sentiment = "negative" :=
    fun m hm => hs m (List.mem_of_mem_filter hm)
  have hsum := countP_three_exhaustive _ hsrm
  rw [resortStat_positive_pct, resortStat_neutral_pct, resortStat_negative_pct, hden]
  set L := (l.filter (fun m => m.resort == rk)).length with hL
  set a := (l.filter (fun m => m.resort == rk)).countP (fun m => m.sentiment == "positive") with haa
  set b := (l.filter (fun m => m.resort == rk)).countP (fun m => m.sentiment == "neutral") with hbb
  set c := (l.filter (fun m => m.resort == rk)).countP (fun m => m.sentiment == "negative") with hcc
  have hLq : (0:ℚ) < (L:ℚ) := by exact_mod_cast hrt
  have hLne : (L:ℚ) ≠ 0 := ne_of_gt hLq
  have hxyz : (a:ℚ) / (L:ℚ) * 100 + (b:ℚ) / (L:ℚ) * 100 + (c:ℚ) / (L:ℚ) * 100 = 100 := by
    have hq : (a:ℚ) + (b:ℚ) + (c:ℚ) = (L:ℚ) := by exact_mod_cast hsum
    field_simp
    nlinarith
  have hba := pct_bounds a L (by omega) hrt
  have hbb2 := pct_bounds b L (by omega) hrt
  have hbc := pct_bounds c L (by omega) hrt
  refine ⟨hba, hbb2, hbc, ?_, ?_⟩
  · have hlow : ((pct a L + pct b L + pct c L : ℤ) : ℚ) ≥ 100 - 3/2 := by
      push_cast
      have h1 := sub_half_le_pyRound ((a:ℚ) / (L:ℚ) * 100)
      have h2 := sub_half_le_pyRound ((b:ℚ) / (L:ℚ) * 100)
      have h3 := sub_half_le_pyRound ((c:ℚ) / (L:ℚ) * 100)
      unfold pct
      linarith
    have h98 : (98:ℤ) < pct a L + pct b L + pct c L := by
      have : ((98:ℤ):ℚ) < ((pct a L + pct b L + pct c L : ℤ) : ℚ) := by
        push_cast
        push_cast at hlow
        linarith
      exact_mod_cast this
    omega
  · have hhigh : ((pct a L + pct b L + pct c L : ℤ) : ℚ) ≤ 100 + 3/2 := by
      push_cast
      have h1 := pyRound_le_add_half ((a:ℚ) / (L:ℚ) * 100)
      have h2 := pyRound_le_add_half ((b:ℚ) / (L:ℚ) * 100)
      have h3 := pyRound_le_add_half ((c:ℚ) / (L:ℚ) * 100)
      unfold pct
      linarith
    have h102 : pct a L + pct b L + pct c L < 102 := by
      have : ((pct a L + pct b L + pct c L : ℤ) : ℚ) < ((102:ℤ):ℚ) := by
        push_cast
        push_cast at hhigh
        linarith
      exact_mod_cast this
    omega

/-- Concrete instantiation of the claim C9 amended theorem at a
location with one mention of each sentiment class. -/
theorem resort_percentages_bounds_witness :
    ([cmP, cmN, cmG] : List ClassifiedMention).filter (fun m => m.resort == "fortress") ≠ [] ∧
    99 ≤ (resortStat [cmP, cmN, cmG] "fortress" "Fortress Mountain").positive_pct +
        (resortStat [cmP, cmN, cmG] "fortress" "Fortress Mountain").neutral_pct +
        (resortStat [cmP, cmN, cmG] "fortress" "Fortress Mountain").negative_pct ∧
    (resortStat [cmP, cmN, cmG] "fortress" "Fortress Mountain").positive_pct +
        (resortStat [cmP, cmN, cmG] "fortress" "Fortress Mountain").neutral_pct +
        (resortStat [cmP, cmN, cmG] "fortress" "Fortress Mountain").negative_pct ≤ 101 :=
  ⟨by decide,
   (resort_percentages_bounds [cmP, cmN, cmG] "fortress" "Fortress Mountain"
     (by decide) (by decide)).2.2.2.1,
   (resort_percentages_bounds [cmP, cmN, cmG] "fortress" "Fortress Mountain"
     (by decide) (by decide)).2.2.2.2⟩

/-- Claim C9 counterexample: a location with one positive, one neutral
and one negative mention gets 33 for each independently rounded
percentage, so the three sum to 99 rather than 100, and this location
row is the one the dashboard builder emits. -/
theorem resort_percentages_sum_99 :
    (resortStat [cmP, cmN, cmG] "fortress" "Fortress Mountain").positive_pct = 33 ∧
    (resortStat [cmP, cmN, cmG] "fortress" "Fortress Mountain").neutral_pct = 33 ∧
    (resortStat [cmP, cmN, cmG] "fortress" "Fortress Mountain").negative_pct = 33 ∧
    ("fortress", resortStat [cmP, cmN, cmG] "fortress" "Fortress Mountain") ∈
      (build_dashboard_data [cmP, cmN, cmG] { daily := [] } "2026-10-12").1.resort_stats := by
  have h3 : pct 1 3 = 33 := by
    unfold pct
    apply pyRound_eq_low _ 33 <;> push_cast <;> norm_num
  have hcp : (([cmP, cmN, cmG] : List ClassifiedMention).filter
      (fun m => m.resort == "fortress")).countP (fun m => m.sentiment == "positive") = 1 := by decide
  have hcn : (([cmP, cmN, cmG] : List ClassifiedMention).filter
      (fun m => m.resort == "fortress")).countP (fun m => m.sentiment == "neutral") = 1 := by decide
  have hcg : (([cmP, cmN, cmG] : List ClassifiedMention).filter
      (fun m => m.resort == "fortress")).countP (fun m => m.sentiment == "negative") = 1 := by decide
  have hl : pctDen (([cmP, cmN, cmG] : List ClassifiedMention).filter
      (fun m => m.resort == "fortress")).length = 3 := by decide
  refine ⟨?_, ?_, ?_, ?_⟩
  · rw [resortStat_positive_pct, hcp, hl, h3]
  · rw [resortStat_neutral_pct, hcn, hl, h3]
  · rw [resortStat_negative_pct, hcg, hl, h3]
  · simp [build_dashboard_data, RESORTS]

end AlpinePulse
